import Mathlib

/-!
Shallow embedding of the `test_executors` crate (src/src/lib.rs, aruntime.rs,
noop_waker.rs, pend_forever.rs) and proofs about its executor core.

Futures are embedded as step functions on an explicit state: one poll maps the
state to a successor state, a poll result, and the list of waker-vtable calls
the future performed during that poll. Executor loops take a fuel bound on the
number of polls, so that nontermination is observable as a distinguished result.
-/

namespace TestExecutors

/-- Mirror of `std::task::Poll`. -/
inductive Poll (α : Type) where
  | Ready : α → Poll α
  | Pending : Poll α
deriving DecidableEq, Repr

/-- The four waker-vtable operations of `CONDVAR_WAKER_VTABLE` (lib.rs 139-161):
clone, wake, wake_by_ref, and the release that Rust calls when a `Waker` drops. -/
inductive WakerOp where
  | clone
  | wake
  | wakeByRef
  | release
deriving DecidableEq, Repr

/-- Shared state behind the `sleep_on` waker (`SimpleWakeShared`, lib.rs 135-137):
the `Arc` strong count together with the permit of the contained
`blocking_semaphore::one::Semaphore`. `count` is the number of outstanding
shares (the executor's local handle plus every live waker handle); `signaled`
is the semaphore's single level-triggered permit. -/
structure WakeSignal where
  count : Nat
  signaled : Bool
deriving DecidableEq, Repr

/-- Modelled from the spec: `blocking_semaphore::one::Semaphore::signal_if_needed`
(the semaphore crate is external to src/). Per the spec the wake signal is a
single-permit, level-triggered semaphore: signalling sets the permit,
idempotently; it is not a counter. -/
def signal_if_needed (s : WakeSignal) : WakeSignal :=
  { s with signaled := true }

/-- Modelled from the spec: `Semaphore::wait` returns immediately when the permit
is set, consuming it; the consuming step is this function. When the permit is
unset, `wait` blocks until some wake sets it. -/
def semaphore_consume (s : WakeSignal) : WakeSignal :=
  { s with signaled := false }

/-- Vtable clone (lib.rs 140-145): resurrect the `Arc`, clone it, forget the
original — the strong count grows by one and the new handle refers to the same
`WakeSignal`. -/
def waker_clone (s : WakeSignal) : WakeSignal :=
  { s with count := s.count + 1 }

/-- Vtable wake (lib.rs 146-150): resurrect the `Arc`, `signal_if_needed`, and
let the resurrected `Arc` drop — set the permit and release the caller's share. -/
def waker_wake (s : WakeSignal) : WakeSignal :=
  { count := s.count - 1, signaled := true }

/-- Vtable wake_by_ref (lib.rs 151-156): resurrect, `signal_if_needed`, forget —
set the permit, keeping the caller's share. -/
def waker_wake_by_ref (s : WakeSignal) : WakeSignal :=
  signal_if_needed s

/-- Vtable drop (lib.rs 157-160): resurrect the `Arc` and drop it — release one
share. -/
def waker_release (s : WakeSignal) : WakeSignal :=
  { s with count := s.count - 1 }

/-- The `Arc` frees the `SimpleWakeShared` exactly when the strong count reaches
zero. -/
def freed (s : WakeSignal) : Bool :=
  s.count == 0

/-- Dispatch one vtable operation. -/
def applyOp (s : WakeSignal) : WakerOp → WakeSignal
  | .clone => waker_clone s
  | .wake => waker_wake s
  | .wakeByRef => waker_wake_by_ref s
  | .release => waker_release s

/-- Apply a sequence of vtable operations in order. -/
def applyOps (s : WakeSignal) (ops : List WakerOp) : WakeSignal :=
  ops.foldl applyOp s

/-- Whether a vtable operation sets the semaphore permit. -/
def SetsSignal : WakerOp → Bool
  | .wake => true
  | .wakeByRef => true
  | .clone => false
  | .release => false

/-- A future as a step function: one poll of the state yields the successor
state, the poll result, and the waker calls made during that poll. -/
abbrev FutureFn (σ α : Type) :=
  σ → σ × Poll α × List WakerOp

/-- The state after `n` polls, driving the future directly. -/
def pollN (f : FutureFn σ α) : Nat → σ → σ
  | 0, st => st
  | n + 1, st => pollN f n (f st).1

/-- The result of the future's `(n+1)`-st poll when driven directly. -/
def pollResult (f : FutureFn σ α) (n : Nat) (st : σ) : Poll α :=
  (f (pollN f n st)).2.1

/-- The future completes with value `v` after exactly `n` Pending polls: polls
`0..n-1` return Pending and poll `n` returns `Ready v`. -/
def CompletesAfter (f : FutureFn σ α) (st : σ) (n : Nat) (v : α) : Prop :=
  (∀ k < n, pollResult f k st = Poll.Pending) ∧ pollResult f n st = Poll.Ready v

/-- `spin_on` (lib.rs 123-133): poll in a busy loop with the no-op waker (which
discards every waker call) until Ready; `std::hint::spin_loop` between polls
has no observable effect. Fuel bounds the number of polls; `none` means the
loop was still running when the fuel ran out. -/
def spin_on (f : FutureFn σ α) : Nat → σ → Option α
  | 0, _ => none
  | fuel + 1, st =>
    match f st with
    | (_, Poll.Ready v, _) => some v
    | (st', Poll.Pending, _) => spin_on f fuel st'

/-- Outcome of a `sleep_on` run under a fuel bound. `blocked` is a
`Semaphore::wait` entered with the permit unset and no other thread able to
set it: in the real code the thread parks forever. -/
inductive ParkResult (α : Type) where
  | done : α → ParkResult α
  | blocked : ParkResult α
  | outOfFuel : ParkResult α
deriving DecidableEq, Repr

/-- The loop of `sleep_on` (lib.rs 223-232): poll; on Ready return the value; on
Pending, the waker calls made during the poll have already updated the shared
`WakeSignal`, then `local.semaphore.wait()` — it returns immediately
(consuming the permit) when the permit is set, else the thread parks with
nobody left to wake it in this single-threaded model. -/
def sleep_on_loop (f : FutureFn σ α) : Nat → σ → WakeSignal → ParkResult α
  | 0, _, _ => .outOfFuel
  | fuel + 1, st, sig =>
    match f st with
    | (_, Poll.Ready v, _) => .done v
    | (st', Poll.Pending, ops) =>
      let sig' := applyOps sig ops
      if sig'.signaled then sleep_on_loop f fuel st' (semaphore_consume sig')
      else .blocked

/-- The fresh shared state `sleep_on` builds (lib.rs 207-212): `Arc::new` then one
`clone` gives strong count 2 (the executor's `local` handle and the waker
handle); `Semaphore::new(false)` starts with the permit unset. -/
def initialSignal : WakeSignal :=
  { count := 2, signaled := false }

/-- `sleep_on` (lib.rs 205-233): fresh `SimpleWakeShared`, then the poll/wait
loop. -/
def sleep_on (f : FutureFn σ α) (st : σ) (fuel : Nat) : ParkResult α :=
  sleep_on_loop f fuel st initialSignal

/-- One poll's signalling effect: the permit is set afterwards iff it was set
before or the operation is a wake. -/
theorem applyOp_signaled (s : WakeSignal) (op : WakerOp) :
    (applyOp s op).signaled = (s.signaled || SetsSignal op) := by
  cases op <;>
    simp [applyOp, waker_clone, waker_wake, waker_wake_by_ref, waker_release,
      signal_if_needed, SetsSignal]

/-- The permit is set after a batch of waker calls iff it was set before or some
call in the batch is a wake. -/
theorem applyOps_signaled (ops : List WakerOp) : ∀ s : WakeSignal,
    (applyOps s ops).signaled = (s.signaled || ops.any SetsSignal) := by
  induction ops with
  | nil => intro s; simp [applyOps]
  | cons op rest ih =>
    intro s
    have h1 : applyOps s (op :: rest) = applyOps (applyOp s op) rest := rfl
    rw [h1, ih, applyOp_signaled, List.any_cons, Bool.or_assoc]

/-- Unfolding: the result of poll `k+1` from `st` is the result of poll `k` from
the state after one poll. -/
theorem pollResult_succ (f : FutureFn σ α) (k : Nat) (st : σ) :
    pollResult f (k + 1) st = pollResult f k (f st).1 := rfl

/-- Unfolding for the poll-state iterator. -/
theorem pollN_succ (f : FutureFn σ α) (k : Nat) (st : σ) :
    pollN f (k + 1) st = pollN f k (f st).1 := rfl

/-- Shifting a completion certificate past the first (Pending) poll. -/
theorem completesAfter_succ (f : FutureFn σ α) (st : σ) (n : Nat) (v : α)
    (h : CompletesAfter f st (n + 1) v) : CompletesAfter f (f st).1 n v := by
  refine ⟨fun k hk => ?_, ?_⟩
  · have := h.1 (k + 1) (by omega)
    rwa [pollResult_succ] at this
  · have := h.2
    rwa [pollResult_succ] at this

/-- `spin_on` returns the completion value as soon as the fuel covers the
completing poll. -/
theorem spin_on_complete : ∀ (n : Nat) (f : FutureFn σ α) (st : σ) (v : α)
    (fuel : Nat), CompletesAfter f st n v → n < fuel →
    spin_on f fuel st = some v := by
  intro n
  induction n with
  | zero =>
    intro f st v fuel h hfuel
    obtain ⟨m, rfl⟩ : ∃ m, fuel = m + 1 := ⟨fuel - 1, by omega⟩
    have h0 : (f st).2.1 = Poll.Ready v := h.2
    rcases hfst : f st with ⟨st', r, ops⟩
    rw [hfst] at h0
    simp only at h0
    subst h0
    simp [spin_on, hfst]
  | succ n ih =>
    intro f st v fuel h hfuel
    obtain ⟨m, rfl⟩ : ∃ m, fuel = m + 1 := ⟨fuel - 1, by omega⟩
    have h0 : (f st).2.1 = Poll.Pending := h.1 0 (by omega)
    have hshift := completesAfter_succ f st n v h
    rcases hfst : f st with ⟨st', r, ops⟩
    rw [hfst] at h0
    simp only at h0
    subst h0
    rw [hfst] at hshift
    simp only [spin_on, hfst]
    exact ih f st' v m hshift (by omega)

/-- `sleep_on_loop` reaches the completion value from any semaphore state, as
long as every Pending poll performs at least one wake. -/
theorem sleep_on_loop_complete : ∀ (n : Nat) (f : FutureFn σ α) (st : σ) (v : α)
    (fuel : Nat) (sig : WakeSignal), CompletesAfter f st n v →
    (∀ k < n, ((f (pollN f k st)).2.2).any SetsSignal = true) → n < fuel →
    sleep_on_loop f fuel st sig = ParkResult.done v := by
  intro n
  induction n with
  | zero =>
    intro f st v fuel sig h _ hfuel
    obtain ⟨m, rfl⟩ : ∃ m, fuel = m + 1 := ⟨fuel - 1, by omega⟩
    have h0 : (f st).2.1 = Poll.Ready v := h.2
    rcases hfst : f st with ⟨st', r, ops⟩
    rw [hfst] at h0
    simp only at h0
    subst h0
    simp [sleep_on_loop, hfst]
  | succ n ih =>
    intro f st v fuel sig h hwake hfuel
    obtain ⟨m, rfl⟩ : ∃ m, fuel = m + 1 := ⟨fuel - 1, by omega⟩
    have h0 : (f st).2.1 = Poll.Pending := h.1 0 (by omega)
    have hw0 : ((f st).2.2).any SetsSignal = true := by
      have := hwake 0 (by omega)
      simpa [pollN] using this
    have hshift := completesAfter_succ f st n v h
    have hwshift : ∀ k < n, ((f (pollN f k (f st).1)).2.2).any SetsSignal = true := by
      intro k hk
      have := hwake (k + 1) (by omega)
      rwa [pollN_succ] at this
    rcases hfst : f st with ⟨st', r, ops⟩
    rw [hfst] at h0
    simp only at h0
    subst h0
    rw [hfst] at hshift hwshift hw0
    simp only at hw0
    have hsig : (applyOps sig ops).signaled = true := by
      rw [applyOps_signaled, hw0, Bool.or_true]
    simp only [sleep_on_loop, hfst, hsig, if_pos]
    exact ih f st' v m (semaphore_consume (applyOps sig ops)) hshift hwshift (by omega)

/-- C1: for every future that returns Ready after a finite (possibly zero)
number of Pending polls — each Pending poll arranging a wake, as the waker
contract requires for `sleep_on` to be resumed — `spin_on` (run_busy) and
`sleep_on` (run_parked) each return exactly the value the future produces on
completion. -/
theorem run_busy_run_parked_return_completion_value (f : FutureFn σ α) (st : σ)
    (n : Nat) (v : α) (fuel : Nat) (h : CompletesAfter f st n v)
    (hwake : ∀ k < n, ((f (pollN f k st)).2.2).any SetsSignal = true)
    (hfuel : n < fuel) :
    spin_on f fuel st = some v ∧ sleep_on f st fuel = ParkResult.done v :=
  ⟨spin_on_complete n f st v fuel h hfuel,
   sleep_on_loop_complete n f st v fuel initialSignal h hwake hfuel⟩

/-- The spec's concrete scenario: the future of the async block computing 21*2,
ready on its first poll. -/
def fortyTwoFuture : FutureFn Unit Nat :=
  fun s => (s, Poll.Ready (21 * 2), [])

/-- Witness for C1: run_busy on the 21*2 future returns 42, and so does
run_parked. -/
theorem run_busy_run_parked_return_completion_value_witness :
    spin_on fortyTwoFuture 1 () = some 42 ∧
    sleep_on fortyTwoFuture () 1 = ParkResult.done 42 :=
  run_busy_run_parked_return_completion_value fortyTwoFuture () 0 42 1
    ⟨by decide, by decide⟩ (by decide) (by decide)

/-- Resumption step of the park loop: a Pending poll whose wake batch (or a
previously set permit) leaves the permit set makes the wait return at once,
and the loop continues with the next poll. -/
theorem sleep_on_resume_step (f : FutureFn σ α) (st st' : σ) (sig : WakeSignal)
    (ops : List WakerOp) (fuel : Nat)
    (hpoll : f st = (st', Poll.Pending, ops))
    (hwoke : ops.any SetsSignal = true ∨ sig.signaled = true) :
    (applyOps sig ops).signaled = true ∧
    sleep_on_loop f (fuel + 1) st sig =
      sleep_on_loop f fuel st' (semaphore_consume (applyOps sig ops)) := by
  have hsig : (applyOps sig ops).signaled = true := by
    rw [applyOps_signaled]
    rcases hwoke with hw | hw <;> simp [hw]
  refine ⟨hsig, ?_⟩
  simp only [sleep_on_loop, hpoll, hsig, if_pos]

/-- C2: no lost wakeup in `sleep_on`. If a wake or wake-by-reference runs on the
waker between a poll returning Pending and the start of the subsequent wait
(in this model, among the calls the poll itself made — including the
reentrant case of the future waking its own waker — or as a permit already
set beforehand), the permit is set when the wait starts, so `Semaphore::wait`
returns immediately instead of blocking and the loop goes on to poll the
future again. -/
theorem sleep_on_no_lost_wakeup (f : FutureFn σ α) (st st' : σ) (sig : WakeSignal)
    (ops : List WakerOp) (fuel : Nat)
    (hpoll : f st = (st', Poll.Pending, ops))
    (hwoke : ops.any SetsSignal = true ∨ sig.signaled = true) :
    (applyOps sig ops).signaled = true ∧
    sleep_on_loop f (fuel + 1) st sig =
      sleep_on_loop f fuel st' (semaphore_consume (applyOps sig ops)) :=
  sleep_on_resume_step f st st' sig ops fuel hpoll hwoke

/-- The reentrant future of the crate's `test_sleep_reentrant` test: the first
poll wakes its own waker by reference and returns Pending; the second poll
returns Ready. -/
def reentrantFuture : FutureFn Bool Unit :=
  fun st =>
    if st then (st, Poll.Ready (), [])
    else (true, Poll.Pending, [WakerOp.wakeByRef])

/-- Witness for C2 at the reentrant test future: the wake performed inside the
first poll is seen by the wait, which returns immediately and the loop polls
again. -/
theorem sleep_on_no_lost_wakeup_witness :
    (applyOps initialSignal [WakerOp.wakeByRef]).signaled = true ∧
    sleep_on_loop reentrantFuture 2 false initialSignal =
      sleep_on_loop reentrantFuture 1 true
        (semaphore_consume (applyOps initialSignal [WakerOp.wakeByRef])) :=
  sleep_on_no_lost_wakeup reentrantFuture false true initialSignal
    [WakerOp.wakeByRef] 1 (by decide) (Or.inl (by decide))

/-- Repeated wake-by-reference beyond the first changes nothing once the permit
is set. -/
theorem applyOps_replicate_wakeByRef_signaled (n : Nat) : ∀ s : WakeSignal,
    s.signaled = true → applyOps s (List.replicate n WakerOp.wakeByRef) = s := by
  induction n with
  | zero => intro s _; rfl
  | succ n ih =>
    intro s hs
    have h1 : applyOps s (List.replicate (n + 1) WakerOp.wakeByRef) =
        applyOps (applyOp s WakerOp.wakeByRef) (List.replicate n WakerOp.wakeByRef) := rfl
    have h2 : applyOp s WakerOp.wakeByRef = s := by
      cases s
      simp_all [applyOp, waker_wake_by_ref, signal_if_needed]
    rw [h1, h2, ih s hs]

/-- N wake-by-reference calls produce the same `WakeSignal` as a single one. -/
theorem applyOps_replicate_wakeByRef (n : Nat) (s : WakeSignal) (hn : 1 ≤ n) :
    applyOps s (List.replicate n WakerOp.wakeByRef) =
      applyOps s [WakerOp.wakeByRef] := by
  obtain ⟨m, rfl⟩ : ∃ m, n = m + 1 := ⟨n - 1, by omega⟩
  have h1 : applyOps s (List.replicate (m + 1) WakerOp.wakeByRef) =
      applyOps (applyOp s WakerOp.wakeByRef) (List.replicate m WakerOp.wakeByRef) := rfl
  rw [h1, applyOps_replicate_wakeByRef_signaled m]
  · rfl
  · simp [applyOp, waker_wake_by_ref, signal_if_needed]

/-- C3: coalescing. N > 1 wake-by-reference calls between two polls leave the
`WakeSignal` in exactly the state of a single wake (setting the permit is
idempotent); N wakes-consuming-their-share set the permit just like one; a
pending poll whose waker was woken N times resumes exactly one poll cycle,
after which the consumed permit is unset again, so there is no second
resumption from the same batch of wakes. -/
theorem wake_coalescing (f : FutureFn σ α) (st st' : σ) (sig : WakeSignal)
    (n fuel : Nat) (hn : 1 < n)
    (hpoll : f st = (st', Poll.Pending, List.replicate n WakerOp.wakeByRef)) :
    applyOps sig (List.replicate n WakerOp.wakeByRef) =
      applyOps sig [WakerOp.wakeByRef] ∧
    (applyOps sig (List.replicate n WakerOp.wake)).signaled =
      (applyOps sig [WakerOp.wake]).signaled ∧
    sleep_on_loop f (fuel + 1) st sig =
      sleep_on_loop f fuel st'
        (semaphore_consume (applyOps sig [WakerOp.wakeByRef])) ∧
    (semaphore_consume (applyOps sig [WakerOp.wakeByRef])).signaled = false := by
  have hrep := applyOps_replicate_wakeByRef n sig (by omega)
  refine ⟨hrep, ?_, ?_, rfl⟩
  · rw [applyOps_signaled, applyOps_signaled]
    have h1 : (List.replicate n WakerOp.wake).any SetsSignal = true := by
      obtain ⟨m, rfl⟩ : ∃ m, n = m + 2 := ⟨n - 2, by omega⟩
      simp [List.replicate, SetsSignal]
    simp [h1, SetsSignal]
  · have hstep := sleep_on_resume_step f st st' sig
      (List.replicate n WakerOp.wakeByRef) fuel hpoll
      (Or.inl (by
        rw [List.any_eq_true]
        exact ⟨WakerOp.wakeByRef, by
          obtain ⟨m, rfl⟩ : ∃ m, n = m + 2 := ⟨n - 2, by omega⟩
          simp [List.replicate], by simp [SetsSignal]⟩))
    rw [hstep.2, hrep]

/-- A future whose first poll returns Pending after waking by reference five
times, and whose second poll is Ready. -/
def fiveWakesFuture : FutureFn Bool Unit :=
  fun st =>
    if st then (st, Poll.Ready (), [])
    else (true, Poll.Pending, List.replicate 5 WakerOp.wakeByRef)

/-- Witness for C3 at N = 5. -/
theorem wake_coalescing_witness :
    applyOps initialSignal (List.replicate 5 WakerOp.wakeByRef) =
      applyOps initialSignal [WakerOp.wakeByRef] ∧
    (applyOps initialSignal (List.replicate 5 WakerOp.wake)).signaled =
      (applyOps initialSignal [WakerOp.wake]).signaled ∧
    sleep_on_loop fiveWakesFuture 2 false initialSignal =
      sleep_on_loop fiveWakesFuture 1 true
        (semaphore_consume (applyOps initialSignal [WakerOp.wakeByRef])) ∧
    (semaphore_consume (applyOps initialSignal [WakerOp.wakeByRef])).signaled = false :=
  wake_coalescing fiveWakesFuture false true initialSignal 5 1
    (by decide) (by decide)

/-- Instants as ticks on a monotone clock. Rust's `Instant::duration_since`
returns the elapsed time from `other` to `self`, saturating to the zero
duration when `other` is later — exactly truncated subtraction on ticks.
`Instant - Instant` calls `duration_since` with the same saturation. -/
def duration_since (self other : Nat) : Nat :=
  self - other

/-- `SleepRuntime::spawn` (aruntime.rs 229-243): take `now`, and if
`poll_after > now`, sleep for `now.duration_since(poll_after)` before calling
`sleep_on`. Returns the duration slept. -/
def sleepRuntime_spawn_sleepDuration (pollAfter now : Nat) : Nat :=
  if pollAfter > now then duration_since now pollAfter else 0

/-- `SleepRuntime::spawn_async` (aruntime.rs 245-259): take `now`, and if
`poll_after > now`, sleep for `poll_after - now` before calling `sleep_on`.
Returns the duration slept. -/
def sleepRuntime_spawnAsync_sleepDuration (pollAfter now : Nat) : Nat :=
  if pollAfter > now then duration_since pollAfter now else 0

/-- Whenever the deadline is strictly in the future, `SleepRuntime::spawn`'s
computed duration saturates to zero. -/
theorem sleepRuntime_spawn_duration_saturates (pollAfter now : Nat)
    (h : now < pollAfter) : sleepRuntime_spawn_sleepDuration pollAfter now = 0 := by
  simp only [sleepRuntime_spawn_sleepDuration, duration_since, if_pos h]
  omega

/-- C4 fails on the code: for a deadline strictly in the future (poll_after 10
ticks, now 0), `SleepRuntime::spawn` computes `now.duration_since(poll_after)`,
which saturates to zero, so it sleeps for 0 ticks instead of the remaining 10;
`spawn_async` computes the duration the right way round and sleeps 10. -/
theorem sleepRuntime_spawn_sleeps_zero :
    sleepRuntime_spawn_sleepDuration 10 0 = 0 ∧
    sleepRuntime_spawnAsync_sleepDuration 10 0 = 10 :=
  ⟨sleepRuntime_spawn_duration_saturates 10 0 (by decide), by decide⟩

/-- C5: the waker capability postconditions on the shared `WakeSignal`.
`clone` increments the share count, leaving the permit alone (same signal);
`wake` sets the permit and is exactly wake-by-reference followed by releasing
the caller's own share; `wake-by-reference` sets the permit with the share
count unchanged; `release` decrements the share count, undoing a `clone`, and
frees the `WakeSignal` exactly when the count reaches zero. -/
theorem waker_capability_postconditions (s : WakeSignal) :
    (waker_clone s).count = s.count + 1 ∧
    (waker_clone s).signaled = s.signaled ∧
    (waker_wake s).signaled = true ∧
    waker_wake s = waker_release (waker_wake_by_ref s) ∧
    (waker_wake_by_ref s).signaled = true ∧
    (waker_wake_by_ref s).count = s.count ∧
    (waker_release s).count = s.count - 1 ∧
    (waker_release s).signaled = s.signaled ∧
    waker_release (waker_clone s) = s ∧
    (freed (waker_release s) = true ↔ s.count - 1 = 0) := by
  cases s with
  | mk count signaled =>
    refine ⟨rfl, rfl, rfl, rfl, rfl, rfl, rfl, rfl, ?_, ?_⟩
    · simp [waker_release, waker_clone]
    · simp [freed, waker_release]

/-- `poll_once` (lib.rs 393-396): build the no-op context (noop_waker.rs) and
poll the pinned future once. The waker calls made during the poll go to the
no-op vtable, whose every entry does nothing, so they are discarded. Returns
the poll result together with the future's advanced state (the caller keeps
the pinned future and may poll again). -/
def poll_once (f : FutureFn σ α) (st : σ) : Poll α × σ :=
  match f st with
  | (st', r, _) => (r, st')

/-- `poll_once_pin` (lib.rs 439-443): take ownership of the future, pin it, poll
once; the future is gone afterwards, so only the result is returned. -/
def poll_once_pin (f : FutureFn σ α) (st : σ) : Poll α :=
  (poll_once f st).1

/-- The same future with its waker calls erased: what the no-op waker makes of
them. -/
def stripWakes (f : FutureFn σ α) : FutureFn σ α :=
  fun s =>
    match f s with
    | (s', r, _) => (s', r, [])

/-- `poll_once` returns the poll result of the single poll it performs. -/
theorem poll_once_fst (f : FutureFn σ α) (st : σ) :
    (poll_once f st).1 = (f st).2.1 := by
  rcases h : f st with ⟨st', r, ops⟩
  simp [poll_once, h]

/-- `poll_once` advances the state by the single poll it performs. -/
theorem poll_once_snd (f : FutureFn σ α) (st : σ) :
    (poll_once f st).2 = (f st).1 := by
  rcases h : f st with ⟨st', r, ops⟩
  simp [poll_once, h]

/-- C6: for every future, `poll_once` and `poll_once_pin` perform exactly one
poll — their result is the first direct-drive poll result, and the state
advances by exactly one poll, so they never loop; they return `Ready v` iff
that single poll completed with `v`, and `Pending` iff it did not. Wake calls
made during the poll are discarded with no observable effect: the result is
unchanged if the future's waker calls are erased. Finally, on a future that
always returns Pending, two successive `poll_once` calls return Pending both
times. -/
theorem poll_once_exactly_one_poll (f : FutureFn σ α) (st : σ) (v : α) :
    (poll_once f st).1 = pollResult f 0 st ∧
    poll_once_pin f st = pollResult f 0 st ∧
    (poll_once f st).2 = pollN f 1 st ∧
    poll_once f st = poll_once (stripWakes f) st ∧
    ((poll_once f st).1 = Poll.Ready v ↔ (f st).2.1 = Poll.Ready v) ∧
    ((poll_once f st).1 = Poll.Pending ↔ (f st).2.1 = Poll.Pending) ∧
    ((∀ s, (f s).2.1 = Poll.Pending) →
      (poll_once f st).1 = Poll.Pending ∧
      (poll_once f (poll_once f st).2).1 = Poll.Pending) := by
  refine ⟨?_, ?_, ?_, ?_, ?_, ?_, ?_⟩
  · rw [poll_once_fst]; rfl
  · show (poll_once f st).1 = pollResult f 0 st
    rw [poll_once_fst]; rfl
  · rw [poll_once_snd]; rfl
  · rcases hfst : f st with ⟨st', r, ops⟩
    simp [poll_once, stripWakes, hfst]
  · rw [poll_once_fst]
  · rw [poll_once_fst]
  · intro hpend
    exact ⟨by rw [poll_once_fst]; exact hpend st,
      by rw [poll_once_fst]; exact hpend _⟩

/-- `PendForever` (pend_forever.rs 19-25): every poll returns Pending; it never
touches the waker. -/
def pendForever : FutureFn Unit Unit :=
  fun s => (s, Poll.Pending, [])

/-- Witness for C6: the Ready case at the 21*2 future (the single poll completes
with 42), and at `PendForever` — as in the crate's `poll_once_test` — two
successive `poll_once` calls both return Pending. -/
theorem poll_once_exactly_one_poll_witness :
    ((poll_once fortyTwoFuture ()).1 = Poll.Ready 42 ↔
      (fortyTwoFuture ()).2.1 = Poll.Ready 42) ∧
    (poll_once pendForever ()).1 = Poll.Pending ∧
    (poll_once pendForever (poll_once pendForever ()).2).1 = Poll.Pending :=
  ⟨(poll_once_exactly_one_poll fortyTwoFuture () 42).2.2.2.2.1,
   ((poll_once_exactly_one_poll pendForever () ()).2.2.2.2.2.2 (fun _ => rfl)).1,
   ((poll_once_exactly_one_poll pendForever () ()).2.2.2.2.2.2 (fun _ => rfl)).2⟩

/-- Whether a park run reached the Complete state with a value. -/
def ParkResult.isDone : ParkResult α → Bool
  | .done _ => true
  | .blocked => false
  | .outOfFuel => false

/-- C9: `PendForever` drives neither executor to completion. `spin_on` never
returns a value for any fuel bound, and `sleep_on`, after the first Pending
poll with no wake, parks forever on the unsignalled semaphore; no fuel bound
ever reaches the Complete state. -/
theorem pend_forever_never_completes (fuel : Nat) :
    spin_on pendForever fuel () = none ∧
    sleep_on pendForever () (fuel + 1) = ParkResult.blocked ∧
    (sleep_on pendForever () fuel).isDone = false := by
  refine ⟨?_, rfl, ?_⟩
  · induction fuel with
    | zero => rfl
    | succ n ih => simpa [spin_on, pendForever] using ih
  · cases fuel with
    | zero => rfl
    | succ n => rfl

/-- Modelled from the spec: the logwise causal context, an external collaborator.
Per the spec contract it is an opaque value supporting
`current() -> Context`, `new_child(parent, label) -> Context`,
`install(context) -> token`, `restore(token)`; we record an identity, the
parent's identity and the label. -/
structure LogContext where
  id : Nat
  parent : Option Nat
  label : String
deriving DecidableEq, Repr

/-- Modelled from the spec: `Context::new_task(Some(parent), label)` derives a
fresh child context tagged with the label; `freshId` stands for the new
context's identity. -/
def new_task (parent : LogContext) (label : String) (freshId : Nat) : LogContext :=
  { id := freshId, parent := some parent.id, label := label }

/-- Modelled from the spec: `Context::set_current` installs a context on the
thread's context stack. -/
def set_current (c : LogContext) (stack : List LogContext) : List LogContext :=
  c :: stack

/-- Modelled from the spec: `Context::pop(id)` removes the current context when
its identity matches the given token. -/
def pop_context (id : Nat) : List LogContext → List LogContext
  | [] => []
  | c :: rest => if c.id = id then rest else c :: rest

/-- What `spawn_on` produces (lib.rs 275-288): the caller's return value (unit —
no handle to observe completion), and the spawned thread's behaviour: the
derived child context, the thread's context stack while the future runs, the
run itself (via `sleep_on`), and the stack after the final pop. -/
structure SpawnOnOutcome (α : Type) where
  callerReturn : Unit
  childContext : LogContext
  stackDuringRun : List LogContext
  runResult : ParkResult α
  stackAfterRun : List LogContext

/-- `spawn_on` (lib.rs 275-288): capture the calling thread's current context,
derive `new_task(Some(prior), thread_name)`, and on the new thread install it
with `set_current` before anything else, run the future via `sleep_on`, then
`pop` the pushed context id. The caller gets unit back immediately. -/
def spawn_on (threadName : String) (f : FutureFn σ α) (st : σ)
    (callerCurrent : LogContext) (freshId : Nat) (threadStack : List LogContext)
    (fuel : Nat) : SpawnOnOutcome α :=
  let priorContext := callerCurrent
  let newContext := new_task priorContext threadName freshId
  let pushedId := newContext.id
  let stack1 := set_current newContext threadStack
  let r := sleep_on f st fuel
  { callerReturn := ()
    childContext := newContext
    stackDuringRun := stack1
    runResult := r
    stackAfterRun := pop_context pushedId stack1 }

/-- C7: `spawn_on` derives its child context from the caller's current context,
tagging it with the task's name; the child context sits on top of the new
thread's context stack while the future runs; the future is run via
`sleep_on`; after the run the pop removes exactly the pushed context,
restoring the thread's stack; and the caller receives unit — no handle to
observe completion. -/
theorem spawn_on_context_propagation (threadName : String) (f : FutureFn σ α)
    (st : σ) (callerCurrent : LogContext) (freshId : Nat)
    (threadStack : List LogContext) (fuel : Nat) :
    (spawn_on threadName f st callerCurrent freshId threadStack fuel).childContext.parent
        = some callerCurrent.id ∧
    (spawn_on threadName f st callerCurrent freshId threadStack fuel).childContext.label
        = threadName ∧
    (spawn_on threadName f st callerCurrent freshId threadStack fuel).stackDuringRun
        = (spawn_on threadName f st callerCurrent freshId threadStack fuel).childContext
            :: threadStack ∧
    (spawn_on threadName f st callerCurrent freshId threadStack fuel).runResult
        = sleep_on f st fuel ∧
    (spawn_on threadName f st callerCurrent freshId threadStack fuel).stackAfterRun
        = threadStack ∧
    (spawn_on threadName f st callerCurrent freshId threadStack fuel).callerReturn
        = () := by
  refine ⟨rfl, rfl, rfl, rfl, ?_, rfl⟩
  simp [spawn_on, pop_context, set_current, new_task]

/-- Outcome of asking the OS for a new thread. -/
inductive SpawnOutcome where
  | success
  | failure
deriving DecidableEq, Repr

/-- Result of a Rust call that may panic. -/
inductive PanicOr (α : Type) where
  | panicked : String → PanicOr α
  | ok : α → PanicOr α
deriving DecidableEq, Repr

/-- Thread creation in `spawn_on` (lib.rs 278-287):
`std::thread::Builder::spawn(..).expect("Cant spawn thread")` — on failure the
`expect` panics with that message; on success the caller gets unit. There is
no retry branch and no recoverable-error return. -/
def spawn_on_threadCreation : SpawnOutcome → PanicOr Unit
  | .failure => .panicked "Cant spawn thread"
  | .success => .ok ()

/-- C8: thread-creation failure in `spawn_on` is fatal — the `expect` panics with
"Cant spawn thread" — and it is the only failure mode: every outcome of the
call is either that panic or a plain unit success, never a recoverable error
value. -/
theorem thread_creation_failure_is_fatal :
    spawn_on_threadCreation SpawnOutcome.failure
        = PanicOr.panicked "Cant spawn thread" ∧
    ∀ o, spawn_on_threadCreation o = PanicOr.panicked "Cant spawn thread" ∨
      spawn_on_threadCreation o = PanicOr.ok () := by
  refine ⟨rfl, fun o => ?_⟩
  cases o
  · exact Or.inr rfl
  · exact Or.inl rfl

/-- Discard a park result's value, keeping whether and how control returned. -/
def ParkResult.toUnit : ParkResult α → ParkResult Unit
  | .done _ => .done ()
  | .blocked => .blocked
  | .outOfFuel => .outOfFuel

/-- `spawn_local` on non-wasm32 targets (lib.rs 324-335): the cfg selects the
native branch, which simply runs `sleep_on(future)` on the calling thread and
discards its value; the debug label is unused. The result records whether
control ever came back. -/
def spawn_local (f : FutureFn σ α) (st : σ) (_debugLabel : String)
    (fuel : Nat) : ParkResult Unit :=
  match sleep_on f st fuel with
  | .done _ => .done ()
  | .blocked => .blocked
  | .outOfFuel => .outOfFuel

/-- C10: on native targets `spawn_local` is synchronous `sleep_on` with the
result discarded, whatever the label: it returns (unit) exactly when
`sleep_on` completes with some value, blocks exactly when `sleep_on` blocks —
so despite the name it is not fire-and-forget. -/
theorem spawn_local_is_sleep_on_discarded (f : FutureFn σ α) (st : σ)
    (label : String) (fuel : Nat) :
    spawn_local f st label fuel = (sleep_on f st fuel).toUnit ∧
    (spawn_local f st label fuel = ParkResult.done () ↔
      ∃ v, sleep_on f st fuel = ParkResult.done v) ∧
    (spawn_local f st label fuel = ParkResult.blocked ↔
      sleep_on f st fuel = ParkResult.blocked) := by
  refine ⟨?_, ?_, ?_⟩ <;>
    rcases h : sleep_on f st fuel with v | _ | _ <;>
      simp [spawn_local, ParkResult.toUnit, h]

end TestExecutors
